import Mathlib

/-!
Verification development for `src/aws_inventory/formatter.py` of the awsmap
repository: a shallow embedding of the output formatters (JSON, CSV, HTML) and
of the aggregation, filtering and highlighting logic embedded in the generated
HTML report, together with theorems settling the specification claims.

Modelling conventions:
* Python dictionaries that the code iterates in insertion order are modelled as
  insertion-ordered association lists.
* A record field that may be absent (or present with value `None`, where the
  two are treated identically by every code path the claims touch) is modelled
  as an `Option`.
* Python's stable `sorted` is modelled by `List.insertionSort`, which is a
  stable sort; on the (deduplicated) inputs the code sorts, any two stable
  sorts with the same comparison agree.
* Machine-level text is `String` (a list of characters); the ASCII case
  mapping performed by `str.lower`/`str.upper`/`toLowerCase` on the data the
  formatter handles is modelled character by character.
-/

/-- `str.lower` on one character (ASCII case mapping). -/
def lowerChar (c : Char) : Char :=
  if 65 ≤ c.toNat ∧ c.toNat ≤ 90 then Char.ofNat (c.toNat + 32) else c

/-- `str.upper` on one character (ASCII case mapping). -/
def upperChar (c : Char) : Char :=
  if 97 ≤ c.toNat ∧ c.toNat ≤ 122 then Char.ofNat (c.toNat - 32) else c

/-- `str.lower` / `String.toLowerCase`. -/
def pyLower (s : String) : String := ⟨s.data.map lowerChar⟩

/-- `str.upper`. -/
def pyUpper (s : String) : String := ⟨s.data.map upperChar⟩

/-- `str(b)` for a Python boolean. -/
def pyStrOfBool (b : Bool) : String := if b then "True" else "False"

/-- A scalar value as it appears inside a `details` mapping. -/
inductive JAtom where
  | str (s : String)
  | int (n : Int)
  | bool (b : Bool)
  | null
deriving DecidableEq, Repr

/-- A `details` value: scalar, list of scalars, or mapping of scalars
(the heterogeneous, resource-type-specific payload of a record). -/
inductive DetailValue where
  | atom (a : JAtom)
  | list (l : List JAtom)
  | dict (l : List (String × JAtom))
deriving DecidableEq, Repr

/-- One resource record as consumed by the formatters.  `none` models an
absent key (or a key present with `None`: the two behave identically in every
code path the claims concern). -/
structure ResourceRecord where
  service : Option String := none
  type : Option String := none
  id : Option String := none
  name : Option String := none
  region : Option String := none
  arn : Option String := none
  is_default : Option Bool := none
  tags : List (String × String) := []
  details : List (String × DetailValue) := []
deriving DecidableEq, Repr

/-- The metadata block of the inventory data. -/
structure Metadata where
  account_id : Option String := none
  timestamp : Option String := none
  scan_duration_seconds : Option Nat := none
deriving DecidableEq, Repr

/-- The inventory data passed to the formatters: `data.get('resources', [])`
and `data.get('metadata', ...)` always succeed, absent keys being the
defaults. -/
structure InventoryData where
  metadata : Metadata := {}
  resources : List ResourceRecord := []
deriving DecidableEq, Repr

/-! ### format_csv -/

/-- A CSV field needs quoting (csv.QUOTE_MINIMAL, excel dialect) iff it
contains the delimiter, the quote character, or a line-terminator character. -/
def csvNeedsQuote (s : String) : Bool :=
  s.data.any (fun c => c == ',' || c == '"' || c == '\r' || c == '\n')

/-- One CSV field under QUOTE_MINIMAL: quoted with doubled quotes when
necessary, verbatim otherwise. -/
def csvField (s : String) : String :=
  if csvNeedsQuote s then "\"" ++ s.replace "\"" "\"\"" ++ "\"" else s

/-- One CSV row (excel dialect): comma-separated fields, CRLF terminator. -/
def csvRow (fields : List String) : String :=
  String.intercalate "," (fields.map csvField) ++ "\r\n"

/-- The `fieldnames` list passed to `csv.DictWriter` in `format_csv`. -/
def csvFieldnames : List String :=
  ["service", "type", "id", "name", "region", "arn", "is_default", "tags"]

/-- `tags_str` computed in `format_csv`: semicolon-space joined `key=value`
pairs, empty string for an empty tag mapping. -/
def tagsStr (tags : List (String × String)) : String :=
  if tags.isEmpty then ""
  else String.intercalate "; " (tags.map (fun p => p.1 ++ "=" ++ p.2))

/-- The row dictionary written for one resource in `format_csv`, projected to
the field order of `csvFieldnames`.  Absent fields default exactly as the
`resource.get` calls do (note: the CSV path defaults a missing region to the
empty string, not to "global"). -/
def rowFields (r : ResourceRecord) : List String :=
  [r.service.getD "", r.type.getD "", r.id.getD "", r.name.getD "",
   r.region.getD "", r.arn.getD "", pyStrOfBool (r.is_default.getD false),
   tagsStr r.tags]

/-- The accumulation performed by the `for resource in resources` loop of
`format_csv` on the `io.StringIO` buffer. -/
def writeRows (acc : String) (rs : List ResourceRecord) : String :=
  rs.foldl (fun a r => a ++ csvRow (rowFields r)) acc

/-- `format_csv`: header-only fast path (bare `\n`) for an empty resource
list, otherwise the `csv.DictWriter` output: header row then one row per
resource, CRLF line terminator. -/
def format_csv (data : InventoryData) : String :=
  if data.resources.isEmpty then "service,type,id,name,region,arn,is_default,tags\n"
  else writeRows (csvRow csvFieldnames) data.resources

/-! ### Aggregation in format_html -/

/-- Service grouping key: `r.get('service', 'unknown')`. -/
def serviceKey (r : ResourceRecord) : String := r.service.getD "unknown"

/-- Region normalisation in `format_html`: `r.get('region', 'global') or
'global'` — absent or empty (or `None`) becomes the sentinel `"global"`. -/
def regionKey (r : ResourceRecord) : String :=
  match r.region with
  | none => "global"
  | some s => if s = "" then "global" else s

/-- Add a record to the insertion-ordered service grouping (`services` dict of
`format_html`). -/
def addToGroup (g : List (String × List ResourceRecord)) (k : String)
    (r : ResourceRecord) : List (String × List ResourceRecord) :=
  match g with
  | [] => [(k, [r])]
  | (k', rs) :: t =>
    if k' = k then (k', rs ++ [r]) :: t else (k', rs) :: addToGroup t k r

/-- The `services` dict of `format_html`: records grouped by service,
insertion-ordered, first-seen order preserved within a group. -/
def groupByService (records : List ResourceRecord) :
    List (String × List ResourceRecord) :=
  records.foldl (fun g r => addToGroup g (serviceKey r) r) []

/-- Increment a key of an insertion-ordered count map. -/
def bumpCount (m : List (String × Nat)) (k : String) : List (String × Nat) :=
  match m with
  | [] => [(k, 1)]
  | (k', n) :: t =>
    if k' = k then (k', n + 1) :: t else (k', n) :: bumpCount t k

/-- The `regions` dict of `format_html`: count of records per normalised
region. -/
def regionsCount (records : List ResourceRecord) : List (String × Nat) :=
  records.foldl (fun m r => bumpCount m (regionKey r)) []

/-- Resource-type key: `service/type` with empty-string defaults. -/
def typeKey (r : ResourceRecord) : String :=
  r.service.getD "" ++ "/" ++ r.type.getD ""

/-- The `resource_types` dict of `format_html`. -/
def resourceTypes (records : List ResourceRecord) : List (String × Nat) :=
  records.foldl (fun m r => bumpCount m (typeKey r)) []

/-- Sum of the values of a count map (`sum(byRegion.values())`). -/
def sumCounts (m : List (String × Nat)) : Nat := (m.map (·.2)).sum

/-- Sum of the group sizes of a grouping (`sum(byService counts)`). -/
def sumSizes (g : List (String × List ResourceRecord)) : Nat :=
  (g.map (·.2.length)).sum

/-! ### Tag vocabulary and sorted option lists -/

/-- The HTML-escape function `esc` of `format_html` (the `None` fast path is
handled by the `Option` defaults at the call sites). -/
def esc (s : String) : String :=
  (((s.replace "&" "&amp;").replace "<" "&lt;").replace ">" "&gt;").replace "\"" "&quot;"

/-- Python `sorted` on strings: stable sort by the lexicographic string
order; on the deduplicated inputs the code sorts, this is the unique sorted
arrangement. -/
def sortedStrings (l : List String) : List String :=
  List.insertionSort (· ≤ ·) l

/-- `all_tags[k].add(v)` preceded by `if k not in all_tags`: add one observed
(key, value) pair to the insertion-ordered vocabulary map, sets being modelled
as duplicate-free lists. -/
def addTagVal (m : List (String × List String)) (k v : String) :
    List (String × List String) :=
  match m with
  | [] => [(k, [v])]
  | (k', vs) :: t =>
    if k' = k then (k', if v ∈ vs then vs else vs ++ [v]) :: t
    else (k', vs) :: addTagVal t k v

/-- The `all_tags` dict of `format_html`: tag key → set of observed values. -/
def collectAllTags (records : List ResourceRecord) :
    List (String × List String) :=
  records.foldl (fun m r => r.tags.foldl (fun m p => addTagVal m p.1 p.2) m) []

/-- `all_tags[k]` (dictionary access; total because the keys looked up are
exactly the stored ones). -/
def lookupVals (m : List (String × List String)) (k : String) : List String :=
  match m with
  | [] => []
  | (k', vs) :: t => if k' = k then vs else lookupVals t k

/-- The (key, value) pairs of the emitted tag-filter vocabulary, in emission
order: outer loop over `sorted(all_tags.keys())`, inner loop over
`sorted(all_tags[k])`. -/
def tagOptionPairs (records : List ResourceRecord) : List (String × String) :=
  let m := collectAllTags records
  ((sortedStrings (m.map (·.1))).map
    (fun k => (sortedStrings (lookupVals m k)).map (fun v => (k, v)))).flatten

/-- The `tag_options` HTML fragment. -/
def tagOptionsHtml (records : List ResourceRecord) : String :=
  String.intercalate "\n" ((tagOptionPairs records).map (fun p =>
    "<option value=\"" ++ esc p.1 ++ "=" ++ esc p.2 ++ "\">" ++ esc p.1 ++ "="
      ++ esc p.2 ++ "</option>"))

/-- The `service_options` HTML fragment. -/
def serviceOptionsHtml (records : List ResourceRecord) : String :=
  String.intercalate "\n"
    ((sortedStrings ((groupByService records).map (·.1))).map (fun s =>
      "<option value=\"" ++ esc s ++ "\">" ++ esc (pyUpper s) ++ "</option>"))

/-- The `region_options` HTML fragment. -/
def regionOptionsHtml (records : List ResourceRecord) : String :=
  String.intercalate "\n"
    ((sortedStrings ((regionsCount records).map (·.1))).map (fun r =>
      "<option value=\"" ++ esc r ++ "\">" ++ esc r ++ "</option>"))

/-! ### Top-N statistics -/

/-- `sorted(items, key=count, reverse=True)`: Python's stable descending sort
by count, modelled by the (stable) insertion sort under the reversed
comparison. -/
def sortCountsDesc (l : List (String × Nat)) : List (String × Nat) :=
  List.insertionSort (fun a b => b.2 ≤ a.2) l

/-- `services.items()` with each group replaced by its size. -/
def serviceCounts (records : List ResourceRecord) : List (String × Nat) :=
  (groupByService records).map (fun p => (p.1, p.2.length))

/-- `top_services`: the five highest-count services, descending, ties in
first-seen order. -/
def topServices (records : List ResourceRecord) : List (String × Nat) :=
  (sortCountsDesc (serviceCounts records)).take 5

/-- `top_regions`: the five highest-count regions. -/
def topRegions (records : List ResourceRecord) : List (String × Nat) :=
  (sortCountsDesc (regionsCount records)).take 5

/-- The bar-width expression `min(100, count*100//max(1,total))`. -/
def barWidth (count total : Nat) : Nat := min 100 (count * 100 / max 1 total)

/-- One rendered chart bar: label, width percentage, count. -/
structure StatBar where
  label : String
  width : Nat
  count : Nat
deriving DecidableEq, Repr

/-- The bars of the Top Services chart (label upper-cased and escaped as in
the source f-string). -/
def serviceBars (records : List ResourceRecord) : List StatBar :=
  (topServices records).map (fun p =>
    ⟨esc (pyUpper p.1), barWidth p.2 records.length, p.2⟩)

/-- The bars of the Top Regions chart. -/
def regionBars (records : List ResourceRecord) : List StatBar :=
  (topRegions records).map (fun p => ⟨esc p.1, barWidth p.2 records.length, p.2⟩)

/-- One `stat-bar` div of a chart. -/
def statBarHtml (extraCls : String) (b : StatBar) : String :=
  "<div class=\"stat-bar\"><span class=\"stat-label\">" ++ b.label ++
    "</span><div class=\"bar" ++ extraCls ++ "\" style=\"width: " ++
    toString b.width ++ "%\"></div><span class=\"stat-value\">" ++
    toString b.count ++ "</span></div>"

/-- The `service_stats` HTML fragment. -/
def serviceStatsHtml (records : List ResourceRecord) : String :=
  String.join ((serviceBars records).map (statBarHtml ""))

/-- The `region_stats` HTML fragment. -/
def regionStatsHtml (records : List ResourceRecord) : String :=
  String.join ((regionBars records).map (statBarHtml " region-bar"))

/-! ### Row data attributes and the embedded filter engine -/

/-- Index of the first occurrence of `needle` in `hay` at or after the start
(`String.prototype.indexOf` restricted to a suffix, rebased to the suffix). -/
def firstOcc (needle hay : List Char) : Option Nat :=
  if needle.isPrefixOf hay then some 0
  else
    match hay with
    | [] => none
    | _ :: t => (firstOcc needle t).map (· + 1)

/-- `hay.includes(sub)` (JavaScript substring containment). -/
def containsSub (hay sub : String) : Bool := (firstOcc sub.data hay.data).isSome

/-- A single quote character, as produced by Python `repr` of a string. -/
def squote : String := String.singleton (Char.ofNat 39)

/-- `str(a)` of a scalar detail value. -/
def pyStrAtom : JAtom → String
  | .str s => s
  | .int n => toString n
  | .bool b => pyStrOfBool b
  | .null => "None"

/-- `repr(a)` of a scalar detail value (as used by `str` of a containing list
or dict). -/
def pyReprAtom : JAtom → String
  | .str s => squote ++ s ++ squote
  | a => pyStrAtom a

/-- `str(v)` of a detail value. -/
def pyStrDetail : DetailValue → String
  | .atom a => pyStrAtom a
  | .list l => "[" ++ String.intercalate ", " (l.map pyReprAtom) ++ "]"
  | .dict l =>
    "\x7b" ++
      String.intercalate ", "
        (l.map (fun p => pyReprAtom (.str p.1) ++ ": " ++ pyReprAtom p.2)) ++
      "\x7d"

/-- Replace every character below the printable-space threshold by a space
(`c if c >= ' ' else ' '`). -/
def stripCtrl (s : String) : String :=
  ⟨s.data.map (fun c => if c < ' ' then ' ' else c)⟩

/-- `detail_text`: space-joined stringified detail values, lower-cased, with
control characters replaced by spaces. -/
def detailText (details : List (String × DetailValue)) : String :=
  stripCtrl (pyLower (String.intercalate " " (details.map (fun p => pyStrDetail p.2))))

/-- The filter-relevant `data-*` attributes of one rendered resource row, as
seen by the embedded script through `row.dataset` (attribute values are
HTML-escaped with `esc` when emitted and unescaped again by the HTML parser,
so the script observes the pre-escape strings modelled here;
`row.dataset.details || ''` yields `""` when the record has no details). -/
structure RowData where
  service : String
  region : String
  name : String
  id : String
  tags : String
  details : String
deriving DecidableEq, Repr

/-- `tags_data`: pipe-joined `key=value` strings (post-parse view). -/
def tagsData (tags : List (String × String)) : String :=
  if tags.isEmpty then ""
  else String.intercalate "|" (tags.map (fun p => p.1 ++ "=" ++ p.2))

/-- The row emitted for record `r` inside the section of service
`service_name`. -/
def buildRow (service_name : String) (r : ResourceRecord) : RowData :=
  { service := service_name
  , region := regionKey r
  , name := pyLower (r.name.getD "")
  , id := pyLower (r.id.getD "")
  , tags := tagsData r.tags
  , details := if r.details.isEmpty then "" else detailText r.details }

/-- One service section of the report: the section's `data-service` attribute
and its resource rows. -/
structure SectionData where
  service : String
  rows : List RowData
deriving DecidableEq, Repr

/-- `services[service_name]` (dictionary access). -/
def lookupGroup (g : List (String × List ResourceRecord)) (k : String) :
    List ResourceRecord :=
  match g with
  | [] => []
  | (k', rs) :: t => if k' = k then rs else lookupGroup t k

/-- The service sections of the report, one per service in sorted key order,
each holding the rows of its group in first-seen order. -/
def htmlSections (records : List ResourceRecord) : List SectionData :=
  (sortedStrings ((groupByService records).map (·.1))).map
    (fun k => ⟨k, (lookupGroup (groupByService records) k).map (buildRow k)⟩)

/-- The four filter controls (`''` = unset, as in the DOM). -/
structure FilterState where
  search : String := ""
  service : String := ""
  region : String := ""
  tag : String := ""
deriving DecidableEq, Repr

/-- The per-row visibility decision of `filterResources`: the conjunction of
the service, region, search and tag predicates, each defaulting to true when
its control is unset. -/
def rowVisible (fs : FilterState) (row : RowData) : Bool :=
  let search := pyLower fs.search
  let matchService := fs.service == "" || row.service == fs.service
  let matchRegion := fs.region == "" || row.region == fs.region
  let matchSearch := search == "" || containsSub row.name search ||
    containsSub row.id search || containsSub row.details search
  let matchTag := fs.tag == "" || (row.tags.splitOn "|").contains fs.tag
  matchService && matchRegion && matchSearch && matchTag

/-- The visible rows a section contributes after one `filterResources` pass:
none when the section is short-circuited by a service-filter mismatch,
otherwise the rows passing `rowVisible` (a section with no visible row is
hidden, which leaves its contributed visible-row set empty either way). -/
def sectionVisibleRows (fs : FilterState) (sec : SectionData) : List RowData :=
  if fs.service ≠ "" ∧ sec.service ≠ fs.service then []
  else sec.rows.filter (rowVisible fs)

/-- The visible-row set of the whole report after one `filterResources`
pass. -/
def visibleRows (fs : FilterState) (sections : List SectionData) : List RowData :=
  (sections.map (sectionVisibleRows fs)).flatten

/-! ### The embedded highlighter -/

/-- A piece of a marked-up text node sequence: plain text or a `<mark>`
element's text. -/
inductive Seg where
  | text (s : List Char)
  | mark (s : List Char)
deriving DecidableEq, Repr

/-- `highlightMatches` on one text node: scan the lower-cased text for the
lower-cased term left to right, always resuming past the end of the previous
match (leftmost, non-overlapping); each match becomes a `<mark>` holding the
original (case-preserving) characters.  An empty term adds no marks. -/
def highlightMatches (t q : List Char) : List Seg :=
  match q with
  | [] => [Seg.text t]
  | qc :: qt =>
    match h : firstOcc ((qc :: qt).map lowerChar) (t.map lowerChar) with
    | none => [Seg.text t]
    | some i =>
      Seg.text (t.take i) ::
        Seg.mark ((t.drop i).take (qt.length + 1)) ::
        highlightMatches (t.drop (i + (qt.length + 1))) (qc :: qt)
termination_by t.length
decreasing_by
  cases t with
  | nil => simp [firstOcc, List.isPrefixOf] at h
  | cons c ct => simp only [List.length_drop, List.length_cons]; omega

/-- `clearHighlights`: replace every mark by its text content and merge
(`Node.normalize`), i.e. concatenate all segment texts. -/
def clearHighlights (segs : List Seg) : List Char :=
  (segs.map (fun s => match s with | .text c => c | .mark c => c)).flatten

/-! ### format_json -/

/-- Lower-case hexadecimal digit. -/
def hexDigit (n : Nat) : Char :=
  if n < 10 then Char.ofNat (48 + n) else Char.ofNat (87 + n)

/-- JSON escaping of one character (`json.dumps` string escaping). -/
def jsonEscapeChar (c : Char) : String :=
  if c = '"' then "\\\""
  else if c = '\\' then "\\\\"
  else if c = '\n' then "\\n"
  else if c = '\r' then "\\r"
  else if c = '\t' then "\\t"
  else if c.toNat < 32 then
    "\\u00" ++ String.singleton (hexDigit (c.toNat / 16)) ++
      String.singleton (hexDigit (c.toNat % 16))
  else String.singleton c

/-- A JSON string literal. -/
def jsonStr (s : String) : String :=
  "\"" ++ String.join (s.data.map jsonEscapeChar) ++ "\""

/-- A JSON value (the shape `json.dumps` receives from the inventory data). -/
inductive JValue where
  | str (s : String)
  | num (n : Int)
  | bool (b : Bool)
  | null
  | arr (l : List JValue)
  | obj (l : List (String × JValue))
deriving Repr

/-- `n` spaces. -/
def spaces (n : Nat) : String := ⟨List.replicate n ' '⟩

mutual

/-- `json.dumps(·, indent=2)` of a value whose enclosing indentation is
`ind`. -/
def dumpVal (ind : Nat) : JValue → String
  | .str s => jsonStr s
  | .num n => toString n
  | .bool b => if b then "true" else "false"
  | .null => "null"
  | .arr [] => "[]"
  | .arr (x :: xs) =>
    "[\n" ++ String.intercalate ",\n" (dumpItems (ind + 2) (x :: xs)) ++ "\n" ++
      spaces ind ++ "]"
  | .obj [] => "\x7b\x7d"
  | .obj (x :: xs) =>
    "\x7b\n" ++ String.intercalate ",\n" (dumpPairs (ind + 2) (x :: xs)) ++ "\n" ++
      spaces ind ++ "\x7d"

/-- The indented items of a JSON array. -/
def dumpItems (ind : Nat) : List JValue → List String
  | [] => []
  | x :: xs => (spaces ind ++ dumpVal ind x) :: dumpItems ind xs

/-- The indented `"key": value` members of a JSON object. -/
def dumpPairs (ind : Nat) : List (String × JValue) → List String
  | [] => []
  | (k, v) :: xs =>
    (spaces ind ++ jsonStr k ++ ": " ++ dumpVal ind v) :: dumpPairs ind xs

end

/-- A scalar detail value as a JSON value. -/
def jAtomToJ : JAtom → JValue
  | .str s => .str s
  | .int n => .num n
  | .bool b => .bool b
  | .null => .null

/-- A detail value as a JSON value. -/
def detailToJ : DetailValue → JValue
  | .atom a => jAtomToJ a
  | .list l => .arr (l.map jAtomToJ)
  | .dict l => .obj (l.map (fun p => (p.1, jAtomToJ p.2)))

/-- One resource record as the JSON object `json.dumps` serialises (present
keys only; key order as produced by discovery, modelled in field order). -/
def recordToJ (r : ResourceRecord) : JValue :=
  .obj ((r.service.toList.map (fun s => ("service", JValue.str s))) ++
    (r.type.toList.map (fun s => ("type", JValue.str s))) ++
    (r.id.toList.map (fun s => ("id", JValue.str s))) ++
    (r.name.toList.map (fun s => ("name", JValue.str s))) ++
    (r.region.toList.map (fun s => ("region", JValue.str s))) ++
    (r.arn.toList.map (fun s => ("arn", JValue.str s))) ++
    (r.is_default.toList.map (fun b => ("is_default", JValue.bool b))) ++
    [("tags", JValue.obj (r.tags.map (fun p => (p.1, JValue.str p.2))))] ++
    [("details", JValue.obj (r.details.map (fun p => (p.1, detailToJ p.2))))])

/-- The metadata block as a JSON object. -/
def metadataToJ (m : Metadata) : JValue :=
  .obj ((m.account_id.toList.map (fun s => ("account_id", JValue.str s))) ++
    (m.timestamp.toList.map (fun s => ("timestamp", JValue.str s))) ++
    (m.scan_duration_seconds.toList.map
      (fun n => ("scan_duration_seconds", JValue.num n))))

/-- `format_json`: `json.dumps(data, indent=2, default=str)`. -/
def format_json (data : InventoryData) : String :=
  dumpVal 0 (.obj [("metadata", metadataToJ data.metadata),
    ("resources", .arr (data.resources.map recordToJ))])

/-! ### format_html assembly -/

/-- Python truthy-or on strings: `a or b`. -/
def pyOr (a b : String) : String := if a = "" then b else a

/-- One step of `str.title`: upper-case an alphabetic character that follows a
non-alphabetic one, lower-case the rest, carry the was-alphabetic flag. -/
def pyTitleAux : List Char → Bool → List Char
  | [], _ => []
  | c :: t, prevAlpha =>
    let isAlpha := (65 ≤ c.toNat ∧ c.toNat ≤ 90) ∨ (97 ≤ c.toNat ∧ c.toNat ≤ 122)
    (if isAlpha then (if prevAlpha then lowerChar c else upperChar c) else c) ::
      pyTitleAux t isAlpha

/-- `str.title` (ASCII). -/
def pyTitle (s : String) : String := ⟨pyTitleAux s.data false⟩

/-- `format_detail_key`: snake_case → Title Case. -/
def formatDetailKey (k : String) : String := pyTitle (k.replace "_" " ")

/-- Compact `json.dumps` of a flat mapping (the `default=str` fallback never
fires for the modelled scalar payloads). -/
def jsonDumpsDictCompact (l : List (String × JAtom)) : String :=
  "\x7b" ++
    String.intercalate ", "
      (l.map (fun p => jsonStr p.1 ++ ": " ++ dumpVal 0 (jAtomToJ p.2))) ++
    "\x7d"

/-- `format_detail_value` of `format_html`. -/
def formatDetailValue : DetailValue → String
  | .atom .null => "<span class=\"detail-value null-value\">&mdash;</span>"
  | .atom (.bool b) =>
    "<span class=\"detail-value " ++ (if b then "bool-true" else "bool-false") ++
      "\">" ++ (if b then "Yes" else "No") ++ "</span>"
  | .list [] => "<span class=\"detail-value null-value\">&mdash;</span>"
  | .list (x :: xs) =>
    "<span class=\"detail-value\"><span class=\"detail-list\">" ++
      String.join ((x :: xs).map (fun item =>
        "<span class=\"detail-list-item\">" ++ esc (pyStrAtom item) ++ "</span>")) ++
      "</span></span>"
  | .dict l => "<span class=\"detail-value\">" ++ esc (jsonDumpsDictCompact l) ++ "</span>"
  | .atom a => "<span class=\"detail-value\">" ++ esc (pyStrAtom a) ++ "</span>"

/-- The first-three tag badges plus the `+n` overflow badge. -/
def tagBadgesHtml (tags : List (String × String)) : String :=
  if tags.isEmpty then ""
  else
    String.join ((tags.take 3).map (fun p =>
        "<span class=\"tag\">" ++ esc p.1 ++ "=" ++ esc p.2 ++ "</span>")) ++
      (if tags.length > 3 then
        "<span class=\"tag more\" onclick=\"toggleTags(this)\">+" ++
          toString (tags.length - 3) ++ "</span>"
      else "")

/-- The hidden tooltip holding the full tag set (emitted only when more than
three tags exist). -/
def tagsTooltipHtml (tags : List (String × String)) : String :=
  if tags.length > 3 then
    "<div class=\"tags-tooltip\">" ++
      String.join (tags.map (fun p =>
        "<span class=\"tag\">" ++ esc p.1 ++ "=" ++ esc p.2 ++ "</span>")) ++
      "</div>"
  else ""

/-- `tags_data` as emitted into the attribute text (escaped per component). -/
def tagsDataEsc (tags : List (String × String)) : String :=
  if tags.isEmpty then ""
  else String.intercalate "|" (tags.map (fun p => esc p.1 ++ "=" ++ esc p.2))

/-- The main `<tr>` of one resource. -/
def rowHtml (service_name : String) (r : ResourceRecord) : String :=
  let region_val := regionKey r
  let detail_attrs :=
    if r.details.isEmpty then ""
    else " data-has-details=\"true\" data-details=\"" ++ esc (detailText r.details) ++
      "\" onclick=\"toggleDetails(this)\""
  let default_badge :=
    if r.is_default.getD false then "<span class=\"default-badge\">DEFAULT</span>"
    else ""
  "<tr data-service=\"" ++ esc service_name ++ "\" data-region=\"" ++
    esc region_val ++ "\" data-name=\"" ++ esc (pyLower (r.name.getD "")) ++
    "\" data-id=\"" ++ esc (pyLower (r.id.getD "")) ++ "\" data-tags=\"" ++
    tagsDataEsc r.tags ++ "\"" ++ detail_attrs ++ ">" ++
    "<td>" ++ esc (r.type.getD "") ++ default_badge ++ "</td>" ++
    "<td>" ++ esc (pyOr (r.name.getD "") (r.id.getD "")) ++ "</td>" ++
    "<td class=\"resource-id\" title=\"Click to copy ARN\" onclick=\"event.stopPropagation(); copyToClipboard(this)\">" ++
    esc (pyOr (r.arn.getD "") (r.id.getD "")) ++ "</td>" ++
    "<td><span class=\"region-badge\" data-region=\"" ++ esc region_val ++ "\">" ++
    esc region_val ++ "</span></td>" ++
    "<td class=\"tags-cell\">" ++ tagBadgesHtml r.tags ++ tagsTooltipHtml r.tags ++
    "</td></tr>"

/-- The hidden detail `<tr>` of one resource (empty when no details). -/
def detailRowHtml (r : ResourceRecord) : String :=
  if r.details.isEmpty then ""
  else
    "<tr class=\"details-row collapsed\"><td colspan=\"5\"><div class=\"details-panel\"><div class=\"details-grid\">" ++
      String.join (r.details.map (fun p =>
        "<div class=\"detail-item\"><span class=\"detail-key\">" ++
          esc (formatDetailKey p.1) ++ "</span>" ++ formatDetailValue p.2 ++
          "</div>")) ++
      "</div></div></td></tr>"

/-- One service section of the report document. -/
def sectionHtml (k : String) (rs : List ResourceRecord) : String :=
  "<div class=\"service-section\" data-service=\"" ++ esc k ++
    "\"><div class=\"service-header\" onclick=\"toggleSection(this)\"><span class=\"service-name\">" ++
    esc (pyUpper k) ++ "</span><span class=\"service-count\">" ++
    toString rs.length ++ " resource" ++ (if rs.length ≠ 1 then "s" else "") ++
    "</span><span class=\"toggle-icon\">+</span></div><div class=\"service-content collapsed\"><table><thead><tr><th>Type</th><th>Name</th><th>ID / ARN</th><th>Region</th><th>Tags</th></tr></thead><tbody>" ++
    String.join (rs.map (fun r => rowHtml k r ++ detailRowHtml r)) ++
    "</tbody></table></div></div>"

/-- All service sections, sorted by service key. -/
def serviceSectionsHtml (records : List ResourceRecord) : String :=
  String.join ((sortedStrings ((groupByService records).map (·.1))).map
    (fun k => sectionHtml k (lookupGroup (groupByService records) k)))

/-- `{total_resources:,}`: decimal digits grouped in threes by commas. -/
def commaFmtAux : List Char → Nat → List Char
  | [], _ => []
  | c :: t, i =>
    c :: (if (i + 1) % 3 = 0 ∧ t ≠ [] then ',' :: commaFmtAux t (i + 1)
          else commaFmtAux t (i + 1))

/-- Thousands-separated rendering of a natural number. -/
def commaFmt (n : Nat) : String :=
  ⟨(commaFmtAux (toString n).data.reverse 0).reverse⟩

/-- `format_html`: the interactive report.  All data-dependent fragments —
metadata header, stat-card numbers, the two top-N charts, the three filter
option lists, and the per-service sections with their rows and data
attributes — are assembled here in source order; the fixed style sheet and
script text of the template (pure presentation, no data dependence) are not
reproduced character by character. -/
def format_html (data : InventoryData) : String :=
  let resources := data.resources
  let account_id := data.metadata.account_id.getD "Unknown"
  let timestamp := data.metadata.timestamp.getD ""
  let duration := data.metadata.scan_duration_seconds.getD 0
  "<!DOCTYPE html><html lang=\"en\"><head><meta charset=\"UTF-8\"><title>awsmap - " ++
    esc account_id ++ "</title></head><body><div class=\"container\"><header><h1>AWS Inventory Report</h1>" ++
    "<div class=\"meta-info\"><span class=\"meta-item\">Account: " ++ esc account_id ++
    "</span><span class=\"meta-item\">Generated: " ++ esc timestamp ++
    "</span><span class=\"meta-item\">Duration: " ++ toString duration ++
    "s</span></div></header><div class=\"stats-grid\"><div class=\"stat-card\"><div class=\"number\" id=\"stat-total\">" ++
    commaFmt resources.length ++
    "</div></div><div class=\"stat-card\"><div class=\"number\" id=\"stat-services\">" ++
    toString (groupByService resources).length ++
    "</div></div><div class=\"stat-card\"><div class=\"number\" id=\"stat-regions\">" ++
    toString (regionsCount resources).length ++
    "</div></div><div class=\"stat-card\"><div class=\"number\" id=\"stat-types\">" ++
    toString (resourceTypes resources).length ++
    "</div></div></div><div class=\"charts-row\"><div class=\"chart-card\"><h3>Top Services</h3><div id=\"chart-services\">" ++
    serviceStatsHtml resources ++
    "</div></div><div class=\"chart-card\"><h3>Top Regions</h3><div id=\"chart-regions\">" ++
    regionStatsHtml resources ++
    "</div></div></div><div class=\"controls\"><select id=\"serviceFilter\"><option value=\"\">All Services</option>" ++
    serviceOptionsHtml resources ++
    "</select><select id=\"regionFilter\"><option value=\"\">All Regions</option>" ++
    regionOptionsHtml resources ++
    "</select><select id=\"tagFilter\"><option value=\"\">All Tags</option>" ++
    tagOptionsHtml resources ++
    "</select></div><div id=\"services-container\">" ++
    serviceSectionsHtml resources ++
    "</div><footer><div class=\"footer-logo\">awsmap</div></footer></div></body></html>"

/-! ### format_output -/

/-- `format_output`: lower-case the requested format, dispatch to the three
formatters, raise `ValueError` (modelled as `Except.error`) for anything
else.  The error message carries the lower-cased format name; no output
accompanies an error, and the (immutable) input data is read only. -/
def format_output (data : InventoryData) (format_type : String) :
    Except String String :=
  let ft := pyLower format_type
  if ft = "json" then .ok (format_json data)
  else if ft = "csv" then .ok (format_csv data)
  else if ft = "html" then .ok (format_html data)
  else .error ("Unsupported format: " ++ ft)

/-- `m.get(k, 0)`: the count stored for a key of a count map. -/
def lookupCount (m : List (String × Nat)) (k : String) : Nat :=
  match m with
  | [] => 0
  | (k', n) :: t => if k' = k then n else lookupCount t k

/-- The s3 record of the spec scenario: region null, empty tags. -/
def s3rec : ResourceRecord :=
  { service := some "s3", type := some "bucket", id := some "b-1" }

/-- A one-record inventory holding `s3rec`. -/
def s3data : InventoryData := { resources := [s3rec] }

/-- The ec2 record of the spec scenario. -/
def ec2rec : ResourceRecord :=
  { service := some "ec2", type := some "instance", id := some "i-1",
    region := some "us-east-1", tags := [("env", "prod")] }

/-! ### Helper lemmas -/

theorem sumCounts_bumpCount (m : List (String × Nat)) (k : String) :
    sumCounts (bumpCount m k) = sumCounts m + 1 := by
  induction m with
  | nil => simp [bumpCount, sumCounts]
  | cons p t ih =>
    obtain ⟨k', n⟩ := p
    by_cases h : k' = k <;> simp [bumpCount, h, sumCounts] at ih ⊢ <;> omega

theorem sumSizes_addToGroup (g : List (String × List ResourceRecord))
    (k : String) (r : ResourceRecord) :
    sumSizes (addToGroup g k r) = sumSizes g + 1 := by
  induction g with
  | nil => simp [addToGroup, sumSizes]
  | cons p t ih =>
    obtain ⟨k', rs⟩ := p
    by_cases h : k' = k <;> simp [addToGroup, h, sumSizes] at ih ⊢ <;> omega

theorem sumCounts_foldl_bump (f : ResourceRecord → String) :
    ∀ (records : List ResourceRecord) (m : List (String × Nat)),
      sumCounts (records.foldl (fun m r => bumpCount m (f r)) m) =
        sumCounts m + records.length := by
  intro records
  induction records with
  | nil => simp
  | cons r t ih => intro m; simp [List.foldl, ih, sumCounts_bumpCount]; omega

theorem sumSizes_foldl_group :
    ∀ (records : List ResourceRecord) (g : List (String × List ResourceRecord)),
      sumSizes (records.foldl (fun g r => addToGroup g (serviceKey r) r) g) =
        sumSizes g + records.length := by
  intro records
  induction records with
  | nil => simp
  | cons r t ih => intro g; simp [List.foldl, ih, sumSizes_addToGroup]; omega

/-! ### Claim theorems -/

/-- Claim C1: every record lands in exactly one service group and one region
bucket — the per-region counts sum to the number of records, and so do the
per-service group sizes. -/
theorem aggregation_totals (records : List ResourceRecord) :
    sumCounts (regionsCount records) = records.length ∧
    sumSizes (groupByService records) = records.length := by
  constructor
  · simpa [regionsCount, sumCounts] using sumCounts_foldl_bump regionKey records []
  · simpa [groupByService, sumSizes] using sumSizes_foldl_group records []

theorem strFoldl_append :
    ∀ (l : List String) (a b : String),
      l.foldl (· ++ ·) (a ++ b) = a ++ l.foldl (· ++ ·) b := by
  intro l
  induction l with
  | nil => intro a b; rfl
  | cons s t ih => intro a b; simp only [List.foldl, String.append_assoc, ih]

theorem strJoin_cons (s : String) (l : List String) :
    String.join (s :: l) = s ++ String.join l := by
  show l.foldl (· ++ ·) ("" ++ s) = s ++ l.foldl (· ++ ·) ""
  have h : "" ++ s = s ++ "" := by simp
  rw [h, strFoldl_append]

theorem writeRows_eq :
    ∀ (rs : List ResourceRecord) (acc : String),
      writeRows acc rs = acc ++ String.join (rs.map (fun r => csvRow (rowFields r))) := by
  intro rs
  induction rs with
  | nil => intro acc; simp [writeRows, String.join]
  | cons r t ih =>
    intro acc
    show writeRows (acc ++ csvRow (rowFields r)) t = _
    rw [ih, List.map_cons, strJoin_cons, String.append_assoc]

theorem tagsStr_eq_intercalate (tags : List (String × String)) :
    tagsStr tags = String.intercalate "; " (tags.map (fun p => p.1 ++ "=" ++ p.2)) := by
  cases tags with
  | nil => rfl
  | cons p t => simp [tagsStr]

/-- Claim C4: `format_csv` of an empty record list is the header-only table
with columns exactly `service, type, id, name, region, arn, is_default, tags`
in this order; for a non-empty record list it is that same header row followed
by exactly one CSV row per resource. -/
theorem format_csv_header_and_rows (data : InventoryData) :
    format_csv data =
      (if data.resources.isEmpty
        then String.intercalate "," csvFieldnames ++ "\n"
        else csvRow csvFieldnames ++
          String.join (data.resources.map (fun r => csvRow (rowFields r)))) ∧
    String.intercalate "," csvFieldnames =
      "service,type,id,name,region,arn,is_default,tags" ∧
    csvRow csvFieldnames = "service,type,id,name,region,arn,is_default,tags\r\n" ∧
    (data.resources.map (fun r => csvRow (rowFields r))).length =
      data.resources.length := by
  refine ⟨?_, by decide, by decide, by simp⟩
  by_cases h : data.resources.isEmpty
  · simp [format_csv, h]
    decide
  · simp [format_csv, h, writeRows_eq]

/-- Claim C5: the `tags` column of a resource's CSV row is its tag mapping
serialised as semicolon-joined `key=value` pairs (so the empty string when the
record carries no tags). -/
theorem csv_tags_column (r : ResourceRecord) :
    (rowFields r)[7]? =
      some (String.intercalate "; " (r.tags.map (fun p => p.1 ++ "=" ++ p.2))) := by
  simp [rowFields, tagsStr_eq_intercalate]

theorem lookupCount_bumpCount (m : List (String × Nat)) (k k' : String) :
    lookupCount (bumpCount m k) k' =
      lookupCount m k' + (if k' = k then 1 else 0) := by
  induction m with
  | nil =>
    simp only [bumpCount, lookupCount]
    split_ifs with h1 h2
    · rfl
    · exact absurd h1.symm h2
    · exact absurd ‹k' = k›.symm h1
    · rfl
  | cons p t ih =>
    obtain ⟨k0, n⟩ := p
    by_cases hk : k0 = k
    · subst hk
      by_cases h' : k0 = k'
      · subst h'
        simp [bumpCount, lookupCount]
      · simp [bumpCount, lookupCount, h', Ne.symm h']
    · by_cases h' : k0 = k'
      · subst h'
        simp [bumpCount, lookupCount, hk, Ne.symm hk]
      · simp [bumpCount, lookupCount, hk, h', ih]

theorem regionsCount_lookup_aux (k : String) :
    ∀ (records : List ResourceRecord) (m : List (String × Nat)),
      lookupCount (records.foldl (fun m r => bumpCount m (regionKey r)) m) k =
        lookupCount m k + records.countP (fun r => regionKey r == k) := by
  intro records
  induction records with
  | nil => simp
  | cons r t ih =>
    intro m
    simp only [List.foldl, ih, lookupCount_bumpCount, List.countP_cons, beq_iff_eq]
    by_cases h : regionKey r = k
    · simp [h]
      omega
    · simp [h, Ne.symm h]

theorem regionsCount_lookup (records : List ResourceRecord) (k : String) :
    lookupCount (regionsCount records) k =
      records.countP (fun r => regionKey r == k) := by
  simpa [regionsCount, lookupCount] using regionsCount_lookup_aux k records []

/-- Claim C3 is false on the code as stated: for the record
`{service: "s3", type: "bucket", id: "b-1", region: null, tags: {}}` the
by-region aggregation does count it under `"global"`, but its CSV dump row
renders the region field as the empty string, not `"global"` —
`format_csv` defaults a missing region to `''`. -/
theorem csv_region_counterexample :
    regionKey s3rec = "global" ∧
    (rowFields s3rec)[4]? = some "" ∧
    ("" : String) ≠ "global" ∧
    format_csv s3data =
      "service,type,id,name,region,arn,is_default,tags\r\ns3,bucket,b-1,,,,False,\r\n" := by
  refine ⟨rfl, rfl, by decide, by decide⟩

/-- Claim C3 (amended): a record whose region field is absent or null is
counted under the sentinel region `"global"` in the by-region aggregation —
the `"global"` bucket counts exactly the records normalising to `"global"` —
but in the tabular (CSV) dump row its region field is rendered as the empty
string, not `"global"`. -/
theorem region_default_amended (records : List ResourceRecord)
    (r : ResourceRecord) (h : r.region = none) :
    regionKey r = "global" ∧ (rowFields r)[4]? = some "" ∧
    lookupCount (regionsCount records) "global" =
      records.countP (fun x => regionKey x == "global") := by
  refine ⟨by simp [regionKey, h], by simp [rowFields, h],
    regionsCount_lookup records "global"⟩

/-- Witness for `region_default_amended` at the s3 record of the spec
scenario. -/
theorem region_default_amended_witness :
    regionKey s3rec = "global" ∧ (rowFields s3rec)[4]? = some "" ∧
    lookupCount (regionsCount [s3rec]) "global" =
      List.countP (fun x => regionKey x == "global") [s3rec] :=
  region_default_amended [s3rec] s3rec rfl

theorem char_toNat_ofNat (n : Nat) (h : n.isValidChar) :
    (Char.ofNat n).toNat = n := by
  simp [Char.ofNat, h, Char.ofNatAux, Char.toNat, UInt32.toNat]

theorem lowerChar_idem (c : Char) : lowerChar (lowerChar c) = lowerChar c := by
  unfold lowerChar
  by_cases h : 65 ≤ c.toNat ∧ c.toNat ≤ 90
  · rw [if_pos h, char_toNat_ofNat _ (Or.inl (by omega)), if_neg (by omega)]
  · rw [if_neg h, if_neg h]

theorem pyLower_idem (s : String) : pyLower (pyLower s) = pyLower s := by
  show (⟨(s.data.map lowerChar).map lowerChar⟩ : String) = ⟨s.data.map lowerChar⟩
  rw [List.map_map]
  have h : lowerChar ∘ lowerChar = lowerChar := funext lowerChar_idem
  rw [h]

/-- Claim C2: for a format whose case-normalised name is not json, csv or
html, `format_output` fails with the invalid-argument error naming the
(normalised) requested format and produces no output (the error carries only
the message); for the three supported names it returns a formatted string and
never fails.  The input data is only read — the embedding is a pure function
of it. -/
theorem format_output_error_handling (data : InventoryData) (fmt : String) :
    (¬(pyLower fmt = "json" ∨ pyLower fmt = "csv" ∨ pyLower fmt = "html") →
      format_output data fmt =
        Except.error ("Unsupported format: " ++ pyLower fmt)) ∧
    ((pyLower fmt = "json" ∨ pyLower fmt = "csv" ∨ pyLower fmt = "html") →
      ∃ s, format_output data fmt = Except.ok s) := by
  constructor
  · intro h
    push_neg at h
    simp [format_output, h.1, h.2.1, h.2.2]
  · rintro (h | h | h) <;> simp [format_output, h]

/-- Witness for `format_output_error_handling`: the unsupported format "xml"
fails with the message naming it; the supported spelling "JSON" succeeds. -/
theorem format_output_error_handling_witness :
    format_output {} "xml" = Except.error ("Unsupported format: " ++ pyLower "xml") ∧
    ∃ s, format_output {} "JSON" = Except.ok s :=
  ⟨(format_output_error_handling {} "xml").1 (by decide),
   (format_output_error_handling {} "JSON").2 (by decide)⟩

/-- Claim C10: `format_output` treats the format name case-insensitively —
it behaves identically on a format string and on its lower-cased form, any
case variant of the three supported names succeeds, and the error message for
an unsupported format names the lower-cased form of the request. -/
theorem format_output_case_insensitive (data : InventoryData) (fmt : String) :
    format_output data fmt = format_output data (pyLower fmt) ∧
    ((pyLower fmt = "json" ∨ pyLower fmt = "csv" ∨ pyLower fmt = "html") →
      (format_output data fmt).isOk = true) ∧
    (¬(pyLower fmt = "json" ∨ pyLower fmt = "csv" ∨ pyLower fmt = "html") →
      format_output data fmt =
        Except.error ("Unsupported format: " ++ pyLower fmt)) := by
  refine ⟨by simp [format_output, pyLower_idem], ?_, ?_⟩
  · rintro (h | h | h) <;> simp [format_output, h, Except.isOk, Except.toBool]
  · intro h
    push_neg at h
    simp [format_output, h.1, h.2.1, h.2.2]

/-- Witness for `format_output_case_insensitive` at the case variant
"HTML". -/
theorem format_output_case_insensitive_witness :
    format_output {} "HTML" = format_output {} (pyLower "HTML") ∧
    (format_output {} "HTML").isOk = true :=
  ⟨(format_output_case_insensitive {} "HTML").1,
   (format_output_case_insensitive {} "HTML").2.1 (by decide)⟩

theorem highlightMatches_some (t : List Char) (qc : Char) (qt : List Char)
    (i : Nat)
    (h : firstOcc ((qc :: qt).map lowerChar) (t.map lowerChar) = some i) :
    highlightMatches t (qc :: qt) =
      Seg.text (t.take i) ::
        Seg.mark ((t.drop i).take (qt.length + 1)) ::
        highlightMatches (t.drop (i + (qt.length + 1))) (qc :: qt) := by
  rw [highlightMatches]
  split
  · simp_all
  · rename_i j hj
    rw [h] at hj
    cases hj
    rfl

/-- Claim C6: clearing the highlight markup restores the original text
exactly — `clear(mark(t, q)) = t` for every text `t` and query `q` — and the
empty query is the identity transform, producing a single unmarked text
segment. -/
theorem highlight_clear_roundtrip (t q : List Char) :
    clearHighlights (highlightMatches t q) = t ∧
    highlightMatches t [] = [Seg.text t] := by
  refine ⟨?_, by rw [highlightMatches]⟩
  induction t, q using highlightMatches.induct with
  | case1 t => simp [highlightMatches, clearHighlights]
  | case2 t qc qt h =>
    rw [highlightMatches]
    split
    · simp [clearHighlights]
    · simp_all
  | case3 t qc qt i h ih =>
    rw [highlightMatches_some t qc qt i h]
    simp only [clearHighlights, List.map_cons, List.flatten_cons] at ih ⊢
    rw [ih]
    have h1 : List.drop (i + (qt.length + 1)) t = (t.drop i).drop (qt.length + 1) := by
      rw [List.drop_drop, Nat.add_comm]
    rw [h1, List.take_append_drop, List.take_append_drop]

theorem buildRow_service (k : String) (r : ResourceRecord) :
    (buildRow k r).service = k := rfl

theorem htmlSections_service (records : List ResourceRecord) :
    ∀ sec ∈ htmlSections records, ∀ row ∈ sec.rows, row.service = sec.service := by
  intro sec hsec row hrow
  simp only [htmlSections, List.mem_map] at hsec
  obtain ⟨k, hk, rfl⟩ := hsec
  simp only [List.mem_map] at hrow
  obtain ⟨r, hr, rfl⟩ := hrow
  rfl

theorem rowVisible_iff (fs : FilterState) (row : RowData) :
    rowVisible fs row = true ↔
      (fs.service = "" ∨ row.service = fs.service) ∧
      (fs.region = "" ∨ row.region = fs.region) ∧
      (pyLower fs.search = "" ∨ containsSub row.name (pyLower fs.search) = true ∨
        containsSub row.id (pyLower fs.search) = true ∨
        containsSub row.details (pyLower fs.search) = true) ∧
      (fs.tag = "" ∨ fs.tag ∈ row.tags.splitOn "|") := by
  unfold rowVisible
  simp only [Bool.and_eq_true, Bool.or_eq_true, beq_iff_eq, List.elem_iff]
  tauto

theorem visibleRows_mem (records : List ResourceRecord) (fs : FilterState)
    (row : RowData) :
    row ∈ visibleRows fs (htmlSections records) ↔
      (∃ sec ∈ htmlSections records, row ∈ sec.rows) ∧
        rowVisible fs row = true := by
  constructor
  · intro h
    simp only [visibleRows, List.mem_flatten, List.mem_map] at h
    obtain ⟨l, ⟨sec, hsec, rfl⟩, hrow⟩ := h
    unfold sectionVisibleRows at hrow
    split at hrow
    · simp at hrow
    · exact ⟨⟨sec, hsec, (List.mem_filter.mp hrow).1⟩, (List.mem_filter.mp hrow).2⟩
  · rintro ⟨⟨sec, hsec, hrow⟩, hvis⟩
    simp only [visibleRows, List.mem_flatten, List.mem_map]
    refine ⟨sectionVisibleRows fs sec, ⟨sec, hsec, rfl⟩, ?_⟩
    unfold sectionVisibleRows
    split
    · rename_i hhide
      exfalso
      have hsvc := htmlSections_service records sec hsec row hrow
      have := (rowVisible_iff fs row).mp hvis
      rcases this.1 with h1 | h1
      · exact hhide.1 h1
      · exact hhide.2 (by rw [← hsvc, ← h1])
    · exact List.mem_filter.mpr ⟨hrow, hvis⟩

/-- Claim C7: a row is visible after a `filterResources` pass iff it is one of
the report's rows and all four predicates (service, region, case-insensitive
text, tag) hold, each defaulting to true for an unset filter; consequently
filtering by a service and a region never shows a row that filtering by the
service alone would hide. -/
theorem filter_conjunction_monotone (records : List ResourceRecord)
    (fs : FilterState) (row : RowData) (S R : String) :
    (row ∈ visibleRows fs (htmlSections records) ↔
      (∃ sec ∈ htmlSections records, row ∈ sec.rows) ∧
      (fs.service = "" ∨ row.service = fs.service) ∧
      (fs.region = "" ∨ row.region = fs.region) ∧
      (pyLower fs.search = "" ∨ containsSub row.name (pyLower fs.search) = true ∨
        containsSub row.id (pyLower fs.search) = true ∨
        containsSub row.details (pyLower fs.search) = true) ∧
      (fs.tag = "" ∨ fs.tag ∈ row.tags.splitOn "|")) ∧
    (row ∈ visibleRows ⟨"", S, R, ""⟩ (htmlSections records) →
      row ∈ visibleRows ⟨"", S, "", ""⟩ (htmlSections records)) := by
  constructor
  · rw [visibleRows_mem, rowVisible_iff]
  · intro h
    rw [visibleRows_mem] at h ⊢
    refine ⟨h.1, ?_⟩
    have := (rowVisible_iff _ row).mp h.2
    exact (rowVisible_iff _ row).mpr ⟨this.1, Or.inl rfl, this.2.2.1, this.2.2.2⟩

/-- Witness for `filter_conjunction_monotone` at the spec scenario records
and the filter state service "ec2", region "us-east-1". -/
theorem filter_conjunction_monotone_witness :
    (buildRow "ec2" ec2rec ∈ visibleRows ⟨"", "ec2", "", ""⟩
        (htmlSections [ec2rec, s3rec]) ↔
      (∃ sec ∈ htmlSections [ec2rec, s3rec], buildRow "ec2" ec2rec ∈ sec.rows) ∧
      (("ec2" : String) = "" ∨ (buildRow "ec2" ec2rec).service = "ec2") ∧
      (("" : String) = "" ∨ (buildRow "ec2" ec2rec).region = "") ∧
      (pyLower "" = "" ∨
        containsSub (buildRow "ec2" ec2rec).name (pyLower "") = true ∨
        containsSub (buildRow "ec2" ec2rec).id (pyLower "") = true ∨
        containsSub (buildRow "ec2" ec2rec).details (pyLower "") = true) ∧
      (("" : String) = "" ∨
        ("" : String) ∈ (buildRow "ec2" ec2rec).tags.splitOn "|")) ∧
    (buildRow "ec2" ec2rec ∈ visibleRows ⟨"", "ec2", "us-east-1", ""⟩
        (htmlSections [ec2rec, s3rec]) →
      buildRow "ec2" ec2rec ∈ visibleRows ⟨"", "ec2", "", ""⟩
        (htmlSections [ec2rec, s3rec])) :=
  filter_conjunction_monotone [ec2rec, s3rec] ⟨"", "ec2", "", ""⟩
    (buildRow "ec2" ec2rec) "ec2" "us-east-1"

theorem lookupVals_addTagVal (m : List (String × List String)) (k v k' : String) :
    lookupVals (addTagVal m k v) k' =
      if k' = k then
        (if v ∈ lookupVals m k then lookupVals m k else lookupVals m k ++ [v])
      else lookupVals m k' := by
  induction m with
  | nil =>
    by_cases h : k = k'
    · subst h; simp [addTagVal, lookupVals]
    · simp [addTagVal, lookupVals, h, Ne.symm h]
  | cons p t ih =>
    obtain ⟨k0, vs0⟩ := p
    by_cases h0 : k0 = k
    · subst h0
      by_cases h1 : k0 = k'
      · subst h1; simp [addTagVal, lookupVals]
      · simp [addTagVal, lookupVals, h1, Ne.symm h1]
    · by_cases h1 : k0 = k'
      · subst h1
        simp [addTagVal, lookupVals, h0, Ne.symm h0]
      · simp [addTagVal, lookupVals, h0, h1, ih]

theorem mem_lookupVals_addTagVal (m : List (String × List String))
    (k v k' v' : String) :
    v' ∈ lookupVals (addTagVal m k v) k' ↔
      (k' = k ∧ v' = v) ∨ v' ∈ lookupVals m k' := by
  rw [lookupVals_addTagVal]
  by_cases h : k' = k
  · subst h
    by_cases hv : v ∈ lookupVals m k'
    · rw [if_pos rfl, if_pos hv]
      constructor
      · exact fun hm => Or.inr hm
      · rintro (⟨_, rfl⟩ | hm)
        · exact hv
        · exact hm
    · rw [if_pos rfl, if_neg hv]
      simp only [List.mem_append, List.mem_singleton]
      constructor
      · rintro (hm | rfl)
        · exact Or.inr hm
        · exact Or.inl ⟨by trivial, rfl⟩
      · rintro (⟨_, rfl⟩ | hm)
        · exact Or.inr rfl
        · exact Or.inl hm
  · rw [if_neg h]
    simp [h]

theorem mem_lookupVals_foldTags :
    ∀ (pairs : List (String × String)) (m : List (String × List String))
      (k v : String),
      v ∈ lookupVals (pairs.foldl (fun m p => addTagVal m p.1 p.2) m) k ↔
        v ∈ lookupVals m k ∨ (k, v) ∈ pairs := by
  intro pairs
  induction pairs with
  | nil => simp
  | cons p t ih =>
    intro m k v
    simp only [List.foldl, ih, mem_lookupVals_addTagVal, List.mem_cons,
      Prod.ext_iff]
    tauto

theorem mem_lookupVals_collect_aux :
    ∀ (records : List ResourceRecord) (m : List (String × List String))
      (k v : String),
      v ∈ lookupVals
          (records.foldl (fun m r => r.tags.foldl (fun m p => addTagVal m p.1 p.2) m) m)
          k ↔
        v ∈ lookupVals m k ∨ ∃ r ∈ records, (k, v) ∈ r.tags := by
  intro records
  induction records with
  | nil => simp
  | cons r t ih =>
    intro m k v
    simp only [List.foldl, ih, mem_lookupVals_foldTags, List.mem_cons]
    constructor
    · rintro ((h | h) | ⟨x, hx, hkv⟩)
      · exact Or.inl h
      · exact Or.inr ⟨r, Or.inl rfl, h⟩
      · exact Or.inr ⟨x, Or.inr hx, hkv⟩
    · rintro (h | ⟨x, (rfl | hx), hkv⟩)
      · exact Or.inl (Or.inl h)
      · exact Or.inl (Or.inr hkv)
      · exact Or.inr ⟨x, hx, hkv⟩

theorem mem_lookupVals_collect (records : List ResourceRecord) (k v : String) :
    v ∈ lookupVals (collectAllTags records) k ↔
      ∃ r ∈ records, (k, v) ∈ r.tags := by
  simpa [collectAllTags, lookupVals] using
    mem_lookupVals_collect_aux records [] k v

theorem lookupVals_ne_nil_mem_keys :
    ∀ (m : List (String × List String)) (k : String),
      lookupVals m k ≠ [] → k ∈ m.map (·.1) := by
  intro m
  induction m with
  | nil => intro k h; exact absurd rfl h
  | cons p t ih =>
    intro k h
    obtain ⟨k0, vs0⟩ := p
    by_cases h0 : k0 = k
    · simp [h0]
    · simp only [lookupVals, if_neg h0] at h
      simp [ih k h]

theorem lookupVals_nodup_addTagVal (m : List (String × List String))
    (k v : String) (h : ∀ k', (lookupVals m k').Nodup) :
    ∀ k', (lookupVals (addTagVal m k v) k').Nodup := by
  intro k'
  rw [lookupVals_addTagVal]
  split
  · split
    · exact h k
    · rename_i hv
      simpa [List.nodup_append] using ⟨h k, hv⟩
  · exact h k'

theorem lookupVals_nodup_foldTags :
    ∀ (pairs : List (String × String)) (m : List (String × List String)),
      (∀ k', (lookupVals m k').Nodup) →
      ∀ k', (lookupVals (pairs.foldl (fun m p => addTagVal m p.1 p.2) m) k').Nodup := by
  intro pairs
  induction pairs with
  | nil => intro m h; exact h
  | cons p t ih =>
    intro m h
    exact ih _ (lookupVals_nodup_addTagVal m p.1 p.2 h)

theorem lookupVals_nodup_collect (records : List ResourceRecord) :
    ∀ k', (lookupVals (collectAllTags records) k').Nodup := by
  suffices h : ∀ (rs : List ResourceRecord) (m : List (String × List String)),
      (∀ k', (lookupVals m k').Nodup) →
      ∀ k', (lookupVals
        (rs.foldl (fun m r => r.tags.foldl (fun m p => addTagVal m p.1 p.2) m) m)
        k').Nodup by
    exact h records [] (fun k' => by simp [lookupVals])
  intro rs
  induction rs with
  | nil => intro m h; exact h
  | cons r t ih =>
    intro m h
    exact ih _ (lookupVals_nodup_foldTags r.tags m h)

theorem keys_addTagVal (m : List (String × List String)) (k v : String) :
    (addTagVal m k v).map (·.1) =
      if k ∈ m.map (·.1) then m.map (·.1) else m.map (·.1) ++ [k] := by
  induction m with
  | nil => simp [addTagVal]
  | cons p t ih =>
    obtain ⟨k0, vs0⟩ := p
    by_cases h0 : k0 = k
    · subst h0
      simp [addTagVal]
    · simp only [addTagVal, if_neg h0, List.map_cons, ih, List.mem_cons]
      by_cases hm : k ∈ t.map (·.1)
      · simp [hm, h0, Ne.symm h0]
      · simp [hm, h0, Ne.symm h0]

theorem keys_nodup_addTagVal (m : List (String × List String)) (k v : String)
    (h : (m.map (·.1)).Nodup) : ((addTagVal m k v).map (·.1)).Nodup := by
  rw [keys_addTagVal]
  split
  · exact h
  · rename_i hm
    rw [List.nodup_append]
    refine ⟨h, List.nodup_singleton _, ?_⟩
    intro a ha hak
    simp only [List.mem_singleton] at hak
    subst hak
    exact hm ha

theorem keys_nodup_foldTags :
    ∀ (pairs : List (String × String)) (m : List (String × List String)),
      (m.map (·.1)).Nodup →
      ((pairs.foldl (fun m p => addTagVal m p.1 p.2) m).map (·.1)).Nodup := by
  intro pairs
  induction pairs with
  | nil => intro m h; exact h
  | cons p t ih =>
    intro m h
    exact ih _ (keys_nodup_addTagVal m p.1 p.2 h)

theorem keys_nodup_collect (records : List ResourceRecord) :
    ((collectAllTags records).map (·.1)).Nodup := by
  suffices h : ∀ (rs : List ResourceRecord) (m : List (String × List String)),
      (m.map (·.1)).Nodup →
      ((rs.foldl (fun m r => r.tags.foldl (fun m p => addTagVal m p.1 p.2) m) m).map
        (·.1)).Nodup by
    exact h records [] (by simp)
  intro rs
  induction rs with
  | nil => intro m h; exact h
  | cons r t ih =>
    intro m h
    exact ih _ (keys_nodup_foldTags r.tags m h)

theorem sortedStrings_pairwise_lt (l : List String) (h : l.Nodup) :
    (sortedStrings l).Pairwise (· < ·) := by
  have h1 : (sortedStrings l).Pairwise (· ≤ ·) := List.sorted_insertionSort _ l
  have h2 : (sortedStrings l).Nodup :=
    ((List.perm_insertionSort _ l).nodup_iff).mpr h
  exact (h1.and h2).imp (fun hab => lt_of_le_of_ne hab.1 hab.2)

theorem mem_sortedStrings (l : List String) (a : String) :
    a ∈ sortedStrings l ↔ a ∈ l :=
  (List.perm_insertionSort _ l).mem_iff

/-- Claim C8: the emitted tag-filter vocabulary is strictly sorted
lexicographically by key and, within one key, by value; it has no duplicates,
and it contains a (key, value) pair iff some record carries that tag. -/
theorem tag_vocabulary_sorted_unique (records : List ResourceRecord) :
    (tagOptionPairs records).Pairwise
      (fun a b => a.1 < b.1 ∨ (a.1 = b.1 ∧ a.2 < b.2)) ∧
    (tagOptionPairs records).Nodup ∧
    (∀ k v, (k, v) ∈ tagOptionPairs records ↔ ∃ r ∈ records, (k, v) ∈ r.tags) := by
  have hpair : (tagOptionPairs records).Pairwise
      (fun a b => a.1 < b.1 ∨ (a.1 = b.1 ∧ a.2 < b.2)) := by
    unfold tagOptionPairs
    apply List.pairwise_flatten.mpr
    constructor
    · intro block hblock
      simp only [List.mem_map] at hblock
      obtain ⟨k, _, rfl⟩ := hblock
      apply List.pairwise_map.mpr
      have := sortedStrings_pairwise_lt (lookupVals (collectAllTags records) k)
        (lookupVals_nodup_collect records k)
      exact this.imp (fun hlt => Or.inr ⟨rfl, hlt⟩)
    · apply List.pairwise_map.mpr
      have := sortedStrings_pairwise_lt ((collectAllTags records).map (·.1))
        (keys_nodup_collect records)
      apply this.imp
      intro k1 k2 hlt x hx y hy
      simp only [List.mem_map] at hx hy
      obtain ⟨v1, _, rfl⟩ := hx
      obtain ⟨v2, _, rfl⟩ := hy
      exact Or.inl hlt
  refine ⟨hpair, ?_, ?_⟩
  · apply hpair.imp
    intro a b hab
    rintro rfl
    rcases hab with h | ⟨_, h⟩ <;> exact lt_irrefl _ h
  · intro k v
    unfold tagOptionPairs
    simp only [List.mem_flatten, List.mem_map]
    constructor
    · rintro ⟨block, ⟨k0, hk0, rfl⟩, hmem⟩
      simp only [List.mem_map] at hmem
      obtain ⟨v0, hv0, hkv⟩ := hmem
      cases hkv
      exact (mem_lookupVals_collect records k v).mp
        ((mem_sortedStrings _ _).mp hv0)
    · intro h
      have hv : v ∈ lookupVals (collectAllTags records) k :=
        (mem_lookupVals_collect records k v).mpr h
      have hk : k ∈ (collectAllTags records).map (·.1) :=
        lookupVals_ne_nil_mem_keys _ k (by intro hnil; rw [hnil] at hv; simp at hv)
      refine ⟨_, ⟨k, (mem_sortedStrings _ _).mpr hk, rfl⟩, ?_⟩
      simp only [List.mem_map]
      exact ⟨v, (mem_sortedStrings _ _).mpr hv, rfl⟩

theorem sortCountsDesc_sorted (l : List (String × Nat)) :
    (sortCountsDesc l).Pairwise (fun a b => b.2 ≤ a.2) := by
  letI : IsTotal (String × Nat) (fun a b => b.2 ≤ a.2) :=
    ⟨fun a b => (le_total a.2 b.2).symm⟩
  letI : IsTrans (String × Nat) (fun a b => b.2 ≤ a.2) :=
    ⟨fun _ _ _ hab hbc => le_trans hbc hab⟩
  exact List.sorted_insertionSort _ l

theorem sorted_take_drop (l : List (String × Nat)) (n : Nat)
    (h : l.Pairwise (fun a b => b.2 ≤ a.2)) :
    ∀ x ∈ l.take n, ∀ y ∈ l.drop n, y.2 ≤ x.2 := by
  intro x hx y hy
  have h' := h
  rw [← List.take_append_drop n l] at h'
  exact (List.pairwise_append.mp h').2.2 x hx y hy

theorem filter_orderedInsert (a : String × Nat) (l : List (String × Nat))
    (c : Nat) :
    (List.orderedInsert (fun x y => y.2 ≤ x.2) a l).filter (fun e => e.2 == c) =
      if a.2 = c then a :: l.filter (fun e => e.2 == c)
      else l.filter (fun e => e.2 == c) := by
  induction l with
  | nil =>
    by_cases h : a.2 = c <;>
      simp [List.orderedInsert, List.filter_cons, beq_iff_eq, h]
  | cons b t ih =>
    simp only [List.orderedInsert]
    by_cases hr : b.2 ≤ a.2
    · rw [if_pos hr]
      by_cases h : a.2 = c <;> simp [List.filter_cons, beq_iff_eq, h]
    · rw [if_neg hr]
      by_cases h : a.2 = c
      · have hb : ¬(b.2 = c) := by omega
        simp [List.filter_cons, beq_iff_eq, hb, ih, h]
      · by_cases hb : b.2 = c <;>
          simp [List.filter_cons, beq_iff_eq, hb, ih, h]

theorem filter_sortCountsDesc (l : List (String × Nat)) (c : Nat) :
    (sortCountsDesc l).filter (fun e => e.2 == c) =
      l.filter (fun e => e.2 == c) := by
  unfold sortCountsDesc
  induction l with
  | nil => rfl
  | cons a t ih =>
    show (List.orderedInsert _ a (List.insertionSort _ t)).filter _ = _
    rw [filter_orderedInsert]
    by_cases h : a.2 = c <;> simp [List.filter_cons, beq_iff_eq, h, ih]

theorem barWidth_le (c t : Nat) : barWidth c t ≤ 100 := min_le_left _ _

theorem barWidth_pos_total (c t : Nat) (h : 1 ≤ t) :
    barWidth c t = min 100 (c * 100 / t) := by
  unfold barWidth
  rw [Nat.max_eq_right h]

/-- Claim C9: the two Top-N charts take the first five entries of the stable
descending-by-count sort of the groups (so counts are non-increasing, every
kept group's count is at least every dropped group's count, and groups of
equal count keep their first-seen iteration order — the stable sort leaves
each equal-count class exactly as it occurs in the grouping); each bar's
width is the group count as an integer percentage of the total record count,
clamped to at most 100; and a zero total means no records, hence empty charts
and no division error. -/
theorem topn_charts_spec (records : List ResourceRecord) :
    (sortCountsDesc (serviceCounts records)).Pairwise (fun a b => b.2 ≤ a.2) ∧
    (sortCountsDesc (regionsCount records)).Pairwise (fun a b => b.2 ≤ a.2) ∧
    topServices records = (sortCountsDesc (serviceCounts records)).take 5 ∧
    topRegions records = (sortCountsDesc (regionsCount records)).take 5 ∧
    (∀ x ∈ topServices records,
      ∀ y ∈ (sortCountsDesc (serviceCounts records)).drop 5, y.2 ≤ x.2) ∧
    (∀ x ∈ topRegions records,
      ∀ y ∈ (sortCountsDesc (regionsCount records)).drop 5, y.2 ≤ x.2) ∧
    (∀ c, (sortCountsDesc (serviceCounts records)).filter (fun e => e.2 == c) =
      (serviceCounts records).filter (fun e => e.2 == c)) ∧
    (∀ c, (sortCountsDesc (regionsCount records)).filter (fun e => e.2 == c) =
      (regionsCount records).filter (fun e => e.2 == c)) ∧
    (∀ b ∈ serviceBars records,
      b.width = barWidth b.count records.length ∧ b.width ≤ 100) ∧
    (∀ b ∈ regionBars records,
      b.width = barWidth b.count records.length ∧ b.width ≤ 100) ∧
    (∀ c t, 1 ≤ t → barWidth c t = min 100 (c * 100 / t)) ∧
    (records.length = 0 → serviceBars records = [] ∧ regionBars records = []) := by
  refine ⟨sortCountsDesc_sorted _, sortCountsDesc_sorted _, rfl, rfl,
    sorted_take_drop _ 5 (sortCountsDesc_sorted _),
    sorted_take_drop _ 5 (sortCountsDesc_sorted _),
    filter_sortCountsDesc _, filter_sortCountsDesc _, ?_, ?_, ?_, ?_⟩
  · intro b hb
    simp only [serviceBars, List.mem_map] at hb
    obtain ⟨p, _, rfl⟩ := hb
    exact ⟨rfl, barWidth_le _ _⟩
  · intro b hb
    simp only [regionBars, List.mem_map] at hb
    obtain ⟨p, _, rfl⟩ := hb
    exact ⟨rfl, barWidth_le _ _⟩
  · exact fun c t h => barWidth_pos_total c t h
  · intro h
    have hnil : records = [] := List.length_eq_zero.mp h
    subst hnil
    exact ⟨rfl, rfl⟩

/-- Witness for `topn_charts_spec` at the two-record spec scenario. -/
theorem topn_charts_spec_witness :
    (sortCountsDesc (serviceCounts [ec2rec, s3rec])).Pairwise
      (fun a b => b.2 ≤ a.2) ∧
    (sortCountsDesc (regionsCount [ec2rec, s3rec])).Pairwise
      (fun a b => b.2 ≤ a.2) ∧
    topServices [ec2rec, s3rec] =
      (sortCountsDesc (serviceCounts [ec2rec, s3rec])).take 5 ∧
    topRegions [ec2rec, s3rec] =
      (sortCountsDesc (regionsCount [ec2rec, s3rec])).take 5 ∧
    (∀ x ∈ topServices [ec2rec, s3rec],
      ∀ y ∈ (sortCountsDesc (serviceCounts [ec2rec, s3rec])).drop 5, y.2 ≤ x.2) ∧
    (∀ x ∈ topRegions [ec2rec, s3rec],
      ∀ y ∈ (sortCountsDesc (regionsCount [ec2rec, s3rec])).drop 5, y.2 ≤ x.2) ∧
    (∀ c, (sortCountsDesc (serviceCounts [ec2rec, s3rec])).filter
        (fun e => e.2 == c) =
      (serviceCounts [ec2rec, s3rec]).filter (fun e => e.2 == c)) ∧
    (∀ c, (sortCountsDesc (regionsCount [ec2rec, s3rec])).filter
        (fun e => e.2 == c) =
      (regionsCount [ec2rec, s3rec]).filter (fun e => e.2 == c)) ∧
    (∀ b ∈ serviceBars [ec2rec, s3rec],
      b.width = barWidth b.count (List.length [ec2rec, s3rec]) ∧ b.width ≤ 100) ∧
    (∀ b ∈ regionBars [ec2rec, s3rec],
      b.width = barWidth b.count (List.length [ec2rec, s3rec]) ∧ b.width ≤ 100) ∧
    (∀ c t, 1 ≤ t → barWidth c t = min 100 (c * 100 / t)) ∧
    (List.length [ec2rec, s3rec] = 0 →
      serviceBars [ec2rec, s3rec] = [] ∧ regionBars [ec2rec, s3rec] = []) :=
  topn_charts_spec [ec2rec, s3rec]
